import Mathlib

/-!
Verification of the telemetry-gateway core in Run.py: the record
normalizer (normalize_node), the poll cycle (poller_loop), the state
table (latest_by_sn) and the subscriber broadcast (broadcast).

The embedding models Python JSON-ish values as the inductive JVal, with
Python truthiness, dict .get / .values access that raises on non-dict
receivers (modelled in the exception monad PyM), and the source's
"x or y" idiom as pyOr.  ISO timestamps are modelled abstractly by the
Iso type: Iso.ofMs q stands for the ISO-8601 UTC rendering of epoch
milliseconds q (Run.py ms_to_iso) and Iso.atNow t for the rendering of
the wall clock t at normalization time (Run.py now_iso).
-/

/-- A Python/JSON value as handled by Run.py. -/
inductive JVal where
  | null
  | bool (b : Bool)
  | num (q : ℚ)
  | str (s : String)
  | arr (xs : List JVal)
  | obj (fs : List (String × JVal))

mutual

def JVal.decEqV : (a b : JVal) → Decidable (a = b)
  | .null, .null => isTrue rfl
  | .null, .bool _ => isFalse (fun h => JVal.noConfusion h)
  | .null, .num _ => isFalse (fun h => JVal.noConfusion h)
  | .null, .str _ => isFalse (fun h => JVal.noConfusion h)
  | .null, .arr _ => isFalse (fun h => JVal.noConfusion h)
  | .null, .obj _ => isFalse (fun h => JVal.noConfusion h)
  | .bool _, .null => isFalse (fun h => JVal.noConfusion h)
  | .bool a, .bool b =>
      match decEq a b with
      | isTrue h => isTrue (by rw [h])
      | isFalse h => isFalse (fun hh => h (by injection hh))
  | .bool _, .num _ => isFalse (fun h => JVal.noConfusion h)
  | .bool _, .str _ => isFalse (fun h => JVal.noConfusion h)
  | .bool _, .arr _ => isFalse (fun h => JVal.noConfusion h)
  | .bool _, .obj _ => isFalse (fun h => JVal.noConfusion h)
  | .num _, .null => isFalse (fun h => JVal.noConfusion h)
  | .num _, .bool _ => isFalse (fun h => JVal.noConfusion h)
  | .num a, .num b =>
      match decEq a b with
      | isTrue h => isTrue (by rw [h])
      | isFalse h => isFalse (fun hh => h (by injection hh))
  | .num _, .str _ => isFalse (fun h => JVal.noConfusion h)
  | .num _, .arr _ => isFalse (fun h => JVal.noConfusion h)
  | .num _, .obj _ => isFalse (fun h => JVal.noConfusion h)
  | .str _, .null => isFalse (fun h => JVal.noConfusion h)
  | .str _, .bool _ => isFalse (fun h => JVal.noConfusion h)
  | .str _, .num _ => isFalse (fun h => JVal.noConfusion h)
  | .str a, .str b =>
      match decEq a b with
      | isTrue h => isTrue (by rw [h])
      | isFalse h => isFalse (fun hh => h (by injection hh))
  | .str _, .arr _ => isFalse (fun h => JVal.noConfusion h)
  | .str _, .obj _ => isFalse (fun h => JVal.noConfusion h)
  | .arr _, .null => isFalse (fun h => JVal.noConfusion h)
  | .arr _, .bool _ => isFalse (fun h => JVal.noConfusion h)
  | .arr _, .num _ => isFalse (fun h => JVal.noConfusion h)
  | .arr _, .str _ => isFalse (fun h => JVal.noConfusion h)
  | .arr xs, .arr ys =>
      match JVal.decEqL xs ys with
      | isTrue h => isTrue (by rw [h])
      | isFalse h => isFalse (fun hh => h (by injection hh))
  | .arr _, .obj _ => isFalse (fun h => JVal.noConfusion h)
  | .obj _, .null => isFalse (fun h => JVal.noConfusion h)
  | .obj _, .bool _ => isFalse (fun h => JVal.noConfusion h)
  | .obj _, .num _ => isFalse (fun h => JVal.noConfusion h)
  | .obj _, .str _ => isFalse (fun h => JVal.noConfusion h)
  | .obj _, .arr _ => isFalse (fun h => JVal.noConfusion h)
  | .obj xs, .obj ys =>
      match JVal.decEqF xs ys with
      | isTrue h => isTrue (by rw [h])
      | isFalse h => isFalse (fun hh => h (by injection hh))

def JVal.decEqL : (xs ys : List JVal) → Decidable (xs = ys)
  | [], [] => isTrue rfl
  | [], _ :: _ => isFalse (fun h => List.noConfusion h)
  | _ :: _, [] => isFalse (fun h => List.noConfusion h)
  | x :: xs, y :: ys =>
      match JVal.decEqV x y, JVal.decEqL xs ys with
      | isTrue h1, isTrue h2 => isTrue (by rw [h1, h2])
      | isFalse h1, _ => isFalse (fun hh => h1 (by injection hh))
      | _, isFalse h2 => isFalse (fun hh => h2 (by injection hh))

def JVal.decEqF : (xs ys : List (String × JVal)) → Decidable (xs = ys)
  | [], [] => isTrue rfl
  | [], _ :: _ => isFalse (fun h => List.noConfusion h)
  | _ :: _, [] => isFalse (fun h => List.noConfusion h)
  | (k, v) :: xs, (l, w) :: ys =>
      match decEq k l, JVal.decEqV v w, JVal.decEqF xs ys with
      | isTrue h0, isTrue h1, isTrue h2 => isTrue (by rw [h0, h1, h2])
      | isFalse h0, _, _ =>
          isFalse (fun hh => h0 (by injection hh with h3 h4; exact congrArg Prod.fst h3))
      | _, isFalse h1, _ =>
          isFalse (fun hh => h1 (by injection hh with h3 h4; exact congrArg Prod.snd h3))
      | _, _, isFalse h2 => isFalse (fun hh => h2 (by injection hh))

end

instance : DecidableEq JVal := JVal.decEqV

/-- Python truthiness of a value (bool(x)). -/
def JVal.truthy : JVal → Bool
  | .null => false
  | .bool b => b
  | .num q => q != 0
  | .str s => s != ""
  | .arr xs => !xs.isEmpty
  | .obj fs => !fs.isEmpty

/-- isinstance(x, dict). -/
def JVal.isObj : JVal → Bool
  | .obj _ => true
  | _ => false

/-- x is None. -/
def JVal.isNull : JVal → Bool
  | .null => true
  | _ => false

/-- "k" in d (key membership in a dict; False on non-dicts is never
relied on: the source always guards with isinstance first). -/
def JVal.hasKey : JVal → String → Bool
  | .obj fs, k => fs.any (fun p => p.1 == k)
  | _, _ => false

/-- d.get(k) on a dict, returning None when the key is absent; on a
non-dict the result is unspecified (the raising form is pyGet). -/
def JVal.getD : JVal → String → JVal
  | .obj fs, k => ((fs.find? (fun p => p.1 == k)).map (fun p => p.2)).getD .null
  | _, _ => .null

/-- list(d.values()) on a dict; the raising form is pyValues. -/
def JVal.valuesD : JVal → List JVal
  | .obj fs => fs.map (fun p => p.2)
  | _ => []

/-- The exception monad for Python code: an error is a raised exception
carrying a message. -/
abbrev PyM (α : Type) := Except String α

/-- x.get(k): AttributeError when x is not a dict. -/
def JVal.pyGet (j : JVal) (k : String) : PyM JVal :=
  if j.isObj then .ok (j.getD k) else .error "AttributeError: get"

/-- x.values(): AttributeError when x is not a dict. -/
def JVal.pyValues (j : JVal) : PyM (List JVal) :=
  if j.isObj then .ok j.valuesD else .error "AttributeError: values"

/-- The Python idiom "a or b": a when a is truthy, else b. -/
def pyOr (a b : JVal) : JVal :=
  if a.truthy then a else b

/-- The empty dict literal. -/
def emptyDict : JVal := .obj []

/-- Abstract ISO-8601 UTC timestamp string: ofMs q is the rendering of
epoch milliseconds q (datetime.fromtimestamp(q / 1000)); atNow t is the
rendering of the wall clock t at the moment of normalization. -/
inductive Iso where
  | ofMs (q : ℚ)
  | atNow (t : ℚ)
deriving DecidableEq

/-- Run.py line 120: now_iso, the current wall-clock instant rendered as
ISO-8601 UTC.  The clock reading t is passed explicitly. -/
def now_iso (t : ℚ) : Iso := .atNow t

/-- Run.py line 123: ms_to_iso.  A falsy argument (None, 0, 0.0, False,
empty containers) yields None; a number is converted; Python True is the
integer 1; any other truthy value raises TypeError on division. -/
def ms_to_iso (ms : JVal) : PyM (Option Iso) :=
  if !ms.truthy then .ok none
  else
    match ms with
    | .num q => .ok (some (.ofMs q))
    | .bool _ => .ok (some (.ofMs 1))
    | _ => .error "TypeError: ms division"

/-- The canonical device record returned by normalize_node
(Run.py lines 171-182). -/
structure NRec where
  sn : JVal
  nickname : JVal
  online : Bool
  lat : JVal
  lng : JVal
  alt_m : JVal
  heading_deg : JVal
  battery_pct : JVal
  flight_state : JVal
  updated_at : Iso
deriving DecidableEq

/-- Run.py lines 135-182: normalize_node.  now is the wall clock at the
moment of normalization.  The result is the raised exception (error),
the skip signal (ok none, Python None) or the canonical record. -/
def normalize_node (now : ℚ) (node : JVal) : PyM (Option NRec) := do
  let host0 ← node.pyGet "host"
  let host := pyOr host0 emptyDict
  let sn ← host.pyGet "device_sn"
  if !sn.truthy then
    return none
  else
    let onlineV ← host.pyGet "device_online_status"
    let online := onlineV.truthy
    let nick0 ← host.pyGet "device_project_callsign"
    let nickname := pyOr nick0 sn
    let ds0 ← host.pyGet "device_state"
    let ds := pyOr ds0 emptyDict
    let base := if ds.isObj && ds.hasKey "latitude" && ds.hasKey "longitude" then ds else JVal.null
    let vals ← ds.pyValues
    let modv0 := (vals.find? (fun v => v.isObj && v.hasKey "latitude" && v.hasKey "longitude")).getD emptyDict
    let modv := pyOr modv0 emptyDict
    let lat0 ← (pyOr base modv).pyGet "latitude"
    let lng0 ← (pyOr base modv).pyGet "longitude"
    let off0 ← host.pyGet "device_offline_position"
    let offline_pos := pyOr off0 emptyDict
    let latlng ←
      if lat0.isNull || lng0.isNull then do
        let la ← offline_pos.pyGet "latitude"
        let ln ← offline_pos.pyGet "longitude"
        pure (la, ln)
      else
        pure (lat0, lng0)
    let alt_m ← (pyOr base modv).pyGet "height"
    let h1 ← (pyOr base modv).pyGet "attitude_head"
    let h2 ← (pyOr base modv).pyGet "heading"
    let heading_deg := pyOr h1 h2
    let batt0 ← (pyOr base modv).pyGet "battery"
    let batt := pyOr batt0 emptyDict
    let battery_pct ← if batt.isObj then batt.pyGet "capacity_percent" else pure JVal.null
    let flight_state ← (pyOr base modv).pyGet "mode_code"
    let ts ← offline_pos.pyGet "timestamp"
    let mti ← ms_to_iso ts
    let updated_at :=
      match mti with
      | some i => i
      | none => now_iso now
    return some {
      sn := sn
      nickname := nickname
      online := online
      lat := latlng.1
      lng := latlng.2
      alt_m := alt_m
      heading_deg := heading_deg
      battery_pct := battery_pct
      flight_state := flight_state
      updated_at := updated_at }

/-- Run.py lines 129-132: extract_nodes. -/
def extract_nodes (payload : JVal) : PyM (List JVal) := do
  let d0 ← payload.pyGet "data"
  let data := pyOr d0 emptyDict
  let n0 ← data.pyGet "list"
  let nodes := pyOr n0 (.arr [])
  match nodes with
  | .arr xs => pure xs
  | _ => pure []

/-! ## Pure mirror of normalize_node

Total accessor functions used to state properties of normalize_node.
They follow the same pyOr defaults as the source; shapeOk is exactly
the condition under which no access in normalize_node raises. -/

/-- host = node.get("host") or {} (Run.py line 136). -/
def hostOf (node : JVal) : JVal := pyOr (node.getD "host") emptyDict

/-- sn = host.get("device_sn") (Run.py line 137). -/
def snOf (node : JVal) : JVal := (hostOf node).getD "device_sn"

/-- ds = host.get("device_state") or {} (Run.py line 144). -/
def dsOf (node : JVal) : JVal := pyOr ((hostOf node).getD "device_state") emptyDict

/-- base (Run.py line 145): the device-state dict itself when it carries
both coordinate keys, else None. -/
def baseOf (node : JVal) : JVal :=
  if (dsOf node).isObj && (dsOf node).hasKey "latitude" && (dsOf node).hasKey "longitude" then
    dsOf node
  else JVal.null

/-- module (Run.py lines 146-149): the first value of the device-state
dict that is itself a dict carrying both coordinate keys, default {}. -/
def moduleOf (node : JVal) : JVal :=
  pyOr
    (((dsOf node).valuesD.find?
        (fun v => v.isObj && v.hasKey "latitude" && v.hasKey "longitude")).getD emptyDict)
    emptyDict

/-- base or module: the object that supplies position tiers (a)/(b). -/
def bmOf (node : JVal) : JVal := pyOr (baseOf node) (moduleOf node)

/-- offline_pos = host.get("device_offline_position") or {} (line 154). -/
def offlineOf (node : JVal) : JVal :=
  pyOr ((hostOf node).getD "device_offline_position") emptyDict

/-- offline_pos.get("timestamp") (Run.py line 169). -/
def offTsOf (node : JVal) : JVal := (offlineOf node).getD "timestamp"

/-- The values of the timestamp field on which ms_to_iso does not raise:
anything falsy, or a number, or a bool. -/
def tsShapeOk (ms : JVal) : Bool :=
  !ms.truthy ||
    (match ms with
     | .num _ => true
     | .bool _ => true
     | _ => false)

/-- Pure value of ms_to_iso on a non-raising argument. -/
def msToIsoPure (ms : JVal) : Option Iso :=
  if !ms.truthy then none
  else
    match ms with
    | .num q => some (.ofMs q)
    | .bool _ => some (.ofMs 1)
    | _ => none

/-- The inputs on which normalize_node raises no exception: the record
is a dict, the host field is a dict once defaulted, and (when the
identifier is truthy, so that the body past the skip guard runs) the
device-state and offline-position fields are dicts once defaulted and
the offline timestamp is of a non-raising shape. -/
def shapeOk (node : JVal) : Bool :=
  node.isObj && (hostOf node).isObj &&
    (!(snOf node).truthy ||
      ((dsOf node).isObj && (offlineOf node).isObj && tsShapeOk (offTsOf node)))

/-- Pure value of normalize_node on a shapeOk record with a truthy
identifier (Run.py lines 141-182). -/
def mkRec (now : ℚ) (node : JVal) : NRec :=
  let sn := snOf node
  let host := hostOf node
  let bm := bmOf node
  let offline_pos := offlineOf node
  let lat0 := bm.getD "latitude"
  let lng0 := bm.getD "longitude"
  { sn := sn
    nickname := pyOr (host.getD "device_project_callsign") sn
    online := (host.getD "device_online_status").truthy
    lat := if lat0.isNull || lng0.isNull then offline_pos.getD "latitude" else lat0
    lng := if lat0.isNull || lng0.isNull then offline_pos.getD "longitude" else lng0
    alt_m := bm.getD "height"
    heading_deg := pyOr (bm.getD "attitude_head") (bm.getD "heading")
    battery_pct :=
      let batt := pyOr (bm.getD "battery") emptyDict
      if batt.isObj then batt.getD "capacity_percent" else JVal.null
    flight_state := bm.getD "mode_code"
    updated_at :=
      match msToIsoPure (offTsOf node) with
      | some i => i
      | none => now_iso now }

/-! ## State table (latest_by_sn), poll cycle and broadcast -/

/-- Association-list model of a CPython dict keyed by device identifier:
assignment replaces the value of an existing key in place and appends a
new key at the end, preserving insertion order. -/
def dictInsert (t : List (JVal × NRec)) (k : JVal) (v : NRec) : List (JVal × NRec) :=
  if t.any (fun p => p.1 == k) then
    t.map (fun p => if p.1 == k then (p.1, v) else p)
  else
    t ++ [(k, v)]

/-- d[k] as an Option. -/
def dictLookup (t : List (JVal × NRec)) (k : JVal) : Option NRec :=
  (t.find? (fun p => p.1 == k)).map (fun p => p.2)

/-- latest_by_sn.update(updates) (Run.py line 226). -/
def dictUpdate (t u : List (JVal × NRec)) : List (JVal × NRec) :=
  u.foldl (fun acc p => dictInsert acc p.1 p.2) t

/-- The normalize-and-accumulate loop of poller_loop (Run.py 217-222):
skip falsy results, key the rest by dev["sn"]. -/
def buildUpdates (now : ℚ) : List JVal → List (JVal × NRec) → PyM (List (JVal × NRec))
  | [], acc => pure acc
  | node :: rest, acc => do
      match ← normalize_node now node with
      | none => buildUpdates now rest acc
      | some dev => buildUpdates now rest (dictInsert acc dev.sn dev)

/-- Outbound message kinds (Run.py lines 230, 233, 235, 254, 285). -/
inductive Msg where
  | snapshot (devices : List NRec)
  | telemetry_update (devices : List NRec)
  | error (message : String)
deriving DecidableEq

/-- Outcome of fetch_topologies (Run.py 184-188): ok carries the parsed
JSON body; httpError an httpx.HTTPError (network failure, timeout, or a
non-2xx status via raise_for_status); otherError any other exception
raised inside the try block, e.g. a JSON decode failure of r.json(). -/
inductive FetchResult where
  | ok (payload : JVal)
  | httpError (e : String)
  | otherError (e : String)

/-- The update-set computation of one successful fetch (Run.py 215-222):
extract_nodes, then normalize and accumulate into an empty dict. -/
def cycleBody (now : ℚ) (payload : JVal) : PyM (List (JVal × NRec)) := do
  let nodes ← extract_nodes payload
  buildUpdates now nodes []

/-- One iteration of the while-loop of poller_loop (Run.py 212-237)
given the fetch outcome: on success merge the update set and broadcast
a telemetry_update when it is non-empty; any raised exception is caught
by the two except clauses, which broadcast an error message and leave
the table untouched.  Returns the new table and the messages broadcast
during that iteration. -/
def pollCycle (now : ℚ) (f : FetchResult) (t : List (JVal × NRec)) :
    List (JVal × NRec) × List Msg :=
  match f with
  | .httpError e => (t, [.error ("HTTP error: " ++ e)])
  | .otherError e => (t, [.error ("Unexpected error: " ++ e)])
  | .ok payload =>
      match cycleBody now payload with
      | .error e => (t, [.error ("Unexpected error: " ++ e)])
      | .ok updates =>
          (dictUpdate t updates,
           if updates.isEmpty then []
           else [.telemetry_update (updates.map (fun p => p.2))])

/-- The update set of a cycle, when the cycle reaches the merge step. -/
def cycleUpdates (now : ℚ) (f : FetchResult) : Option (List (JVal × NRec)) :=
  match f with
  | .ok payload =>
      match cycleBody now payload with
      | .ok updates => some updates
      | .error _ => none
  | _ => none

/-- poller_loop over a finite schedule of fetch outcomes, threading the
state table through the cycles and concatenating the broadcasts. -/
def pollerLoop (now : ℚ) : List FetchResult → List (JVal × NRec) →
    List (JVal × NRec) × List Msg
  | [], t => (t, [])
  | f :: fs, t =>
      let r1 := pollCycle now f t
      let r2 := pollerLoop now fs r1.1
      (r2.1, r1.2 ++ r2.2)

/-- The record held for key k after folding the update sets of the given
cycles over a table in which k resolves to dflt: the entry of the most
recent cycle whose update set contains k, else dflt. -/
def lastEntry (now : ℚ) (fs : List FetchResult) (k : JVal) (dflt : Option NRec) : Option NRec :=
  fs.foldl (fun acc f =>
    match (cycleUpdates now f).bind (fun u => dictLookup u k) with
    | some v => some v
    | none => acc) dflt

/-- One subscriber handle in the registry ws_clients. -/
abbrev Client := ℕ

/-- The send loop of broadcast (Run.py 196-200): attempt delivery to
every handle in iteration order; sendOk says whether ws.send_text
succeeds on a handle; a failure appends the handle to the dead list.
Returns (handles that received the message, dead list). -/
def sendAll (sendOk : Client → Bool) : List Client → List Client × List Client
  | [] => ([], [])
  | ws :: rest =>
      if sendOk ws then
        let r := sendAll sendOk rest
        (ws :: r.1, r.2)
      else
        let r := sendAll sendOk rest
        (r.1, ws :: r.2)

/-- broadcast (Run.py 190-203): send to every registered handle, then
discard each dead handle from the registry.  Returns (handles that
received the message, registry afterwards). -/
def broadcast (sendOk : Client → Bool) (registry : List Client) :
    List Client × List Client :=
  let r := sendAll sendOk registry
  (r.1, r.2.foldl (fun reg ws => reg.filter (fun c => c != ws)) registry)

/-- Run.py line 66: POLL_SECONDS = float(os.getenv("POLL_SECONDS", "2.0"));
the optional environment override is the argument, the default is 2.0. -/
def POLL_SECONDS (env : Option ℚ) : ℚ := env.getD 2

/-- Run.py line 186: the hard per-call timeout passed to client.get in
fetch_topologies, timeout=10.0 seconds. -/
def FETCH_TIMEOUT : ℚ := 10

/-! ## Reduction lemmas for the exception monad and normalize_node

normalize_node_shape_cases characterizes normalize_node completely: on a
shapeOk input it returns the pure value (skip for a falsy identifier,
mkRec otherwise), on any other input it raises. -/

theorem pym_bind_ok {α β : Type} (a : α) (f : α → PyM β) :
    (Except.ok a : PyM α) >>= f = f a := rfl

theorem pym_bind_error {α β : Type} (e : String) (f : α → PyM β) :
    (Except.error e : PyM α) >>= f = Except.error e := rfl

theorem pym_pure {α : Type} (a : α) : (pure a : PyM α) = Except.ok a := rfl

theorem truthy_of_hasKey {j : JVal} {k : String} (h : j.hasKey k = true) :
    j.truthy = true := by
  cases j <;> simp [JVal.hasKey] at h ⊢
  case obj fs =>
    cases fs with
    | nil => simp at h
    | cons a l => simp [JVal.truthy]

theorem pyOr_isObj {a b : JVal} (ha : a.truthy = true → a.isObj = true)
    (hb : b.isObj = true) : (pyOr a b).isObj = true := by
  unfold pyOr
  by_cases h : a.truthy = true
  · simp [h, ha h]
  · rw [Bool.not_eq_true] at h
    simp [h, hb]

theorem findSub_isObj (ds : JVal) :
    ((ds.valuesD.find?
        (fun v => v.isObj && v.hasKey "latitude" && v.hasKey "longitude")).getD
      emptyDict).isObj = true := by
  cases hf : ds.valuesD.find?
      (fun v => v.isObj && v.hasKey "latitude" && v.hasKey "longitude") with
  | none => rfl
  | some v =>
      have hp := List.find?_some hf
      simp only [Bool.and_eq_true] at hp
      simpa using hp.1.1

theorem bm_isObj' {ds : JVal} (hds : ds.isObj = true) :
    (pyOr (if (ds.hasKey "latitude" && ds.hasKey "longitude") = true then ds else JVal.null)
      (pyOr ((ds.valuesD.find?
          (fun v => v.isObj && v.hasKey "latitude" && v.hasKey "longitude")).getD emptyDict)
        emptyDict)).isObj = true := by
  apply pyOr_isObj
  · intro ht
    by_cases hb : (ds.hasKey "latitude" && ds.hasKey "longitude") = true
    · simp only [hb]
      simpa using hds
    · simp only [hb, if_false, Bool.false_eq_true] at ht
      exact absurd ht (by simp [JVal.truthy])
  · apply pyOr_isObj
    · intro _
      exact findSub_isObj ds
    · rfl

theorem ms_to_iso_of_tsShapeOk {ms : JVal} (h : tsShapeOk ms = true) :
    ms_to_iso ms = .ok (msToIsoPure ms) := by
  by_cases ht : ms.truthy = true
  · cases ms <;> simp_all [tsShapeOk, ms_to_iso, msToIsoPure]
  · rw [Bool.not_eq_true] at ht
    simp [ms_to_iso, msToIsoPure, ht]

theorem ms_to_iso_of_not_tsShapeOk {ms : JVal} (h : tsShapeOk ms = false) :
    ms_to_iso ms = Except.error "TypeError: ms division" := by
  unfold tsShapeOk at h
  cases ms <;> simp_all [ms_to_iso, JVal.truthy]

theorem normalize_node_skip (now : ℚ) (node : JVal) (hn : node.isObj = true)
    (hh : (hostOf node).isObj = true)
    (hsn : (snOf node).truthy = false) :
    normalize_node now node = .ok none := by
  simp only [hostOf] at hh
  simp only [snOf, hostOf] at hsn
  simp only [normalize_node, JVal.pyGet, hn, if_true, pym_bind_ok, hh, hsn,
    Bool.not_false, pym_pure]

theorem normalize_node_full (now : ℚ) (node : JVal) (hn : node.isObj = true)
    (hh : (hostOf node).isObj = true)
    (hsn : (snOf node).truthy = true)
    (hds : (dsOf node).isObj = true)
    (hoff : (offlineOf node).isObj = true)
    (hts : tsShapeOk (offTsOf node) = true) :
    normalize_node now node = .ok (some (mkRec now node)) := by
  have hmti := ms_to_iso_of_tsShapeOk hts
  simp only [hostOf] at hh
  simp only [snOf, hostOf] at hsn
  simp only [dsOf, hostOf] at hds
  simp only [offlineOf, hostOf] at hoff
  simp only [offTsOf, offlineOf, hostOf] at hmti
  simp only [normalize_node, mkRec, snOf, bmOf, baseOf, moduleOf, dsOf, offlineOf, offTsOf,
    hostOf, now_iso, JVal.pyGet, JVal.pyValues, hn, if_true, pym_bind_ok, pym_pure]
  set host : JVal := pyOr (node.getD "host") emptyDict with hostdef
  simp only [hh, if_true, pym_bind_ok]
  set sn : JVal := host.getD "device_sn" with sndef
  simp only [hsn, Bool.not_true, Bool.false_eq_true, if_false]
  set ds : JVal := pyOr (host.getD "device_state") emptyDict with dsdef
  simp only [hds, if_true, pym_bind_ok, Bool.true_and]
  set base : JVal :=
    if (ds.hasKey "latitude" && ds.hasKey "longitude") = true then ds else JVal.null
    with basedef
  set modv : JVal := pyOr ((List.find?
      (fun v => v.isObj && v.hasKey "latitude" && v.hasKey "longitude") ds.valuesD).getD
      emptyDict) emptyDict with modvdef
  set bm : JVal := pyOr base modv with bmdef
  have hbm : bm.isObj = true := by
    rw [bmdef, basedef, modvdef]
    exact bm_isObj' hds
  simp only [hbm, if_true, pym_bind_ok]
  set off : JVal := pyOr (host.getD "device_offline_position") emptyDict with offdef
  simp only [hoff, if_true, pym_bind_ok, hmti]
  by_cases hnull : ((bm.getD "latitude").isNull || (bm.getD "longitude").isNull) = true
  · simp only [hnull, if_true]
    by_cases hbatt : (pyOr (bm.getD "battery") emptyDict).isObj = true
    · simp only [hbatt, if_true, pym_bind_ok]
    · rw [Bool.not_eq_true] at hbatt
      simp only [hbatt, Bool.false_eq_true, if_false]
  · rw [Bool.not_eq_true] at hnull
    simp only [hnull, Bool.false_eq_true, if_false]
    by_cases hbatt : (pyOr (bm.getD "battery") emptyDict).isObj = true
    · simp only [hbatt, if_true, pym_bind_ok]
    · rw [Bool.not_eq_true] at hbatt
      simp only [hbatt, Bool.false_eq_true, if_false]

theorem normalize_node_err_node (now : ℚ) (node : JVal) (hn : node.isObj = false) :
    normalize_node now node = Except.error "AttributeError: get" := by
  simp only [normalize_node, JVal.pyGet, hn, Bool.false_eq_true, if_false, pym_bind_error]

theorem normalize_node_err_host (now : ℚ) (node : JVal) (hn : node.isObj = true)
    (hh : (hostOf node).isObj = false) :
    normalize_node now node = Except.error "AttributeError: get" := by
  simp only [hostOf] at hh
  simp only [normalize_node, JVal.pyGet, hn, if_true, pym_bind_ok, hh,
    Bool.false_eq_true, if_false, pym_bind_error]

theorem normalize_node_err_ds (now : ℚ) (node : JVal) (hn : node.isObj = true)
    (hh : (hostOf node).isObj = true)
    (hsn : (snOf node).truthy = true)
    (hds : (dsOf node).isObj = false) :
    normalize_node now node = Except.error "AttributeError: values" := by
  simp only [hostOf] at hh
  simp only [snOf, hostOf] at hsn
  simp only [dsOf, hostOf] at hds
  simp only [normalize_node, JVal.pyGet, JVal.pyValues, hn, if_true, pym_bind_ok]
  set host : JVal := pyOr (node.getD "host") emptyDict with hostdef
  simp only [hh, if_true, pym_bind_ok]
  set sn : JVal := host.getD "device_sn" with sndef
  simp only [hsn, Bool.not_true, Bool.false_eq_true, if_false]
  set ds : JVal := pyOr (host.getD "device_state") emptyDict with dsdef
  simp only [hds, Bool.false_eq_true, if_false, pym_bind_error]

theorem normalize_node_err_off (now : ℚ) (node : JVal) (hn : node.isObj = true)
    (hh : (hostOf node).isObj = true)
    (hsn : (snOf node).truthy = true)
    (hds : (dsOf node).isObj = true)
    (hoff : (offlineOf node).isObj = false) :
    normalize_node now node = Except.error "AttributeError: get" := by
  simp only [hostOf] at hh
  simp only [snOf, hostOf] at hsn
  simp only [dsOf, hostOf] at hds
  simp only [offlineOf, hostOf] at hoff
  simp only [normalize_node, JVal.pyGet, JVal.pyValues, hn, if_true, pym_bind_ok]
  set host : JVal := pyOr (node.getD "host") emptyDict with hostdef
  simp only [hh, if_true, pym_bind_ok]
  set sn : JVal := host.getD "device_sn" with sndef
  simp only [hsn, Bool.not_true, Bool.false_eq_true, if_false]
  set ds : JVal := pyOr (host.getD "device_state") emptyDict with dsdef
  simp only [hds, if_true, pym_bind_ok, Bool.true_and]
  set base : JVal :=
    if (ds.hasKey "latitude" && ds.hasKey "longitude") = true then ds else JVal.null
    with basedef
  set modv : JVal := pyOr ((List.find?
      (fun v => v.isObj && v.hasKey "latitude" && v.hasKey "longitude") ds.valuesD).getD
      emptyDict) emptyDict with modvdef
  set bm : JVal := pyOr base modv with bmdef
  have hbm : bm.isObj = true := by
    rw [bmdef, basedef, modvdef]
    exact bm_isObj' hds
  simp only [hbm, if_true, pym_bind_ok]
  set off : JVal := pyOr (host.getD "device_offline_position") emptyDict with offdef
  simp only [hoff, Bool.false_eq_true, if_false, pym_bind_error, pym_pure, pym_bind_ok, ite_self]
  by_cases hbatt : (pyOr (bm.getD "battery") emptyDict).isObj = true
  · simp only [hbatt, if_true, pym_bind_ok, ite_self]
  · rw [Bool.not_eq_true] at hbatt
    simp only [hbatt, Bool.false_eq_true, if_false, ite_self]

theorem normalize_node_err_ts (now : ℚ) (node : JVal) (hn : node.isObj = true)
    (hh : (hostOf node).isObj = true)
    (hsn : (snOf node).truthy = true)
    (hds : (dsOf node).isObj = true)
    (hoff : (offlineOf node).isObj = true)
    (hts : tsShapeOk (offTsOf node) = false) :
    normalize_node now node = Except.error "TypeError: ms division" := by
  have hmti := ms_to_iso_of_not_tsShapeOk hts
  simp only [hostOf] at hh
  simp only [snOf, hostOf] at hsn
  simp only [dsOf, hostOf] at hds
  simp only [offlineOf, hostOf] at hoff
  simp only [offTsOf, offlineOf, hostOf] at hmti
  simp only [normalize_node, JVal.pyGet, JVal.pyValues, hn, if_true, pym_bind_ok]
  set host : JVal := pyOr (node.getD "host") emptyDict with hostdef
  simp only [hh, if_true, pym_bind_ok]
  set sn : JVal := host.getD "device_sn" with sndef
  simp only [hsn, Bool.not_true, Bool.false_eq_true, if_false]
  set ds : JVal := pyOr (host.getD "device_state") emptyDict with dsdef
  simp only [hds, if_true, pym_bind_ok, Bool.true_and]
  set base : JVal :=
    if (ds.hasKey "latitude" && ds.hasKey "longitude") = true then ds else JVal.null
    with basedef
  set modv : JVal := pyOr ((List.find?
      (fun v => v.isObj && v.hasKey "latitude" && v.hasKey "longitude") ds.valuesD).getD
      emptyDict) emptyDict with modvdef
  set bm : JVal := pyOr base modv with bmdef
  have hbm : bm.isObj = true := by
    rw [bmdef, basedef, modvdef]
    exact bm_isObj' hds
  simp only [hbm, if_true, pym_bind_ok]
  set off : JVal := pyOr (host.getD "device_offline_position") emptyDict with offdef
  simp only [hoff, if_true, pym_bind_ok, hmti, pym_bind_error, pym_pure, ite_self]
  by_cases hbatt : (pyOr (bm.getD "battery") emptyDict).isObj = true
  · simp only [hbatt, if_true, pym_bind_ok, ite_self]
  · rw [Bool.not_eq_true] at hbatt
    simp only [hbatt, Bool.false_eq_true, if_false, ite_self]

theorem normalize_node_shape_cases (now : ℚ) (node : JVal) :
    (shapeOk node = true ∧
      normalize_node now node =
        Except.ok (if (snOf node).truthy = true then some (mkRec now node) else none)) ∨
    (shapeOk node = false ∧ ∃ e, normalize_node now node = Except.error e) := by
  by_cases hn : node.isObj = true
  · by_cases hh : (hostOf node).isObj = true
    · by_cases hsn : (snOf node).truthy = true
      · by_cases hds : (dsOf node).isObj = true
        · by_cases hoff : (offlineOf node).isObj = true
          · by_cases hts : tsShapeOk (offTsOf node) = true
            · left
              refine ⟨by simp [shapeOk, hn, hh, hds, hoff, hts], ?_⟩
              rw [if_pos hsn]
              exact normalize_node_full now node hn hh hsn hds hoff hts
            · right
              rw [Bool.not_eq_true] at hts
              refine ⟨by simp [shapeOk, hsn, hts], ?_⟩
              exact ⟨_, normalize_node_err_ts now node hn hh hsn hds hoff hts⟩
          · right
            rw [Bool.not_eq_true] at hoff
            refine ⟨by simp [shapeOk, hsn, hoff], ?_⟩
            exact ⟨_, normalize_node_err_off now node hn hh hsn hds hoff⟩
        · right
          rw [Bool.not_eq_true] at hds
          refine ⟨by simp [shapeOk, hsn, hds], ?_⟩
          exact ⟨_, normalize_node_err_ds now node hn hh hsn hds⟩
      · left
        rw [Bool.not_eq_true] at hsn
        refine ⟨by simp [shapeOk, hn, hh, hsn], ?_⟩
        rw [if_neg (by simp [hsn])]
        exact normalize_node_skip now node hn hh hsn
    · right
      rw [Bool.not_eq_true] at hh
      refine ⟨by simp [shapeOk, hh], ?_⟩
      exact ⟨_, normalize_node_err_host now node hn hh⟩
  · right
    rw [Bool.not_eq_true] at hn
    refine ⟨by simp [shapeOk, hn], ?_⟩
    exact ⟨_, normalize_node_err_node now node hn⟩

/-- Inversion: a successful non-skip run forces the shape conditions and
determines the record as the pure mkRec value. -/
theorem normalize_node_ok_some {now : ℚ} {node : JVal} {dev : NRec}
    (h : normalize_node now node = Except.ok (some dev)) :
    shapeOk node = true ∧ (snOf node).truthy = true ∧ dev = mkRec now node := by
  rcases normalize_node_shape_cases now node with ⟨h1, h2⟩ | ⟨h1, e, h2⟩
  · by_cases hsn : (snOf node).truthy = true
    · rw [if_pos hsn, h] at h2
      refine ⟨h1, hsn, ?_⟩
      injection h2 with h3
      injection h3
    · rw [if_neg hsn, h] at h2
      exact absurd h2 (by simp)
  · rw [h] at h2
    exact absurd h2 (by simp)

/-! ## List and dictionary lemmas -/

theorem find?_of_filter_cons {α : Type} {p : α → Bool} {xs : List α} {m : α} {rest : List α}
    (h : xs.filter p = m :: rest) : xs.find? p = some m := by
  induction xs with
  | nil => simp at h
  | cons x xs ih =>
      by_cases hx : p x = true
      · rw [List.filter_cons_of_pos hx] at h
        injection h with h1 h2
        rw [List.find?_cons_of_pos _ hx, h1]
      · rw [Bool.not_eq_true] at hx
        rw [List.filter_cons_of_neg (by simp [hx])] at h
        rw [List.find?_cons_of_neg _ (by simp [hx])]
        exact ih h

theorem find?_of_filter_nil {α : Type} {p : α → Bool} {xs : List α}
    (h : xs.filter p = []) : xs.find? p = none := by
  rw [List.find?_eq_none]
  intro x hx
  rw [List.filter_eq_nil_iff] at h
  simp [h x hx]

theorem mem_dictInsert {t : List (JVal × NRec)} {k : JVal} {v : NRec}
    {p : JVal × NRec} (h : p ∈ dictInsert t k v) : p ∈ t ∨ p = (k, v) := by
  unfold dictInsert at h
  by_cases ha : t.any (fun q => q.1 == k) = true
  · rw [if_pos ha] at h
    rcases List.mem_map.mp h with ⟨q, hq, hfq⟩
    by_cases hk : (q.1 == k) = true
    · right
      rw [if_pos hk] at hfq
      rw [← hfq, eq_of_beq hk]
    · left
      rw [if_neg hk] at hfq
      rw [← hfq]; exact hq
  · rw [if_neg ha] at h
    rcases List.mem_append.mp h with h1 | h1
    · exact Or.inl h1
    · right; simpa using h1

theorem keys_dictInsert (t : List (JVal × NRec)) (k : JVal) (v : NRec) :
    (dictInsert t k v).map (fun p => p.1) =
      if t.any (fun q => q.1 == k) then t.map (fun p => p.1)
      else t.map (fun p => p.1) ++ [k] := by
  unfold dictInsert
  by_cases ha : t.any (fun q => q.1 == k) = true
  · rw [if_pos ha, if_pos ha, List.map_map]
    apply List.map_congr_left
    intro q hq
    simp only [Function.comp_apply]
    by_cases hk : (q.1 == k) = true
    · rw [if_pos hk]
    · rw [if_neg hk]
  · rw [if_neg ha, if_neg ha]
    simp

theorem nodup_keys_dictInsert {t : List (JVal × NRec)} {k : JVal} {v : NRec}
    (h : (t.map (fun p => p.1)).Nodup) :
    ((dictInsert t k v).map (fun p => p.1)).Nodup := by
  rw [keys_dictInsert]
  by_cases ha : t.any (fun q => q.1 == k) = true
  · rw [if_pos ha]; exact h
  · rw [if_neg ha]
    rw [List.nodup_append]
    refine ⟨h, List.nodup_singleton k, ?_⟩
    intro a hat hak
    rcases List.mem_map.mp hat with ⟨q, hq, hfq⟩
    simp only [List.mem_singleton] at hak
    rw [List.any_eq_true] at ha
    exact ha ⟨q, hq, by rw [hfq, hak]; simp⟩

theorem lookup_map_replace {t : List (JVal × NRec)} {k k' : JVal} {v : NRec}
    (hk : k' ≠ k) :
    dictLookup (t.map (fun p => if p.1 == k then (p.1, v) else p)) k' = dictLookup t k' := by
  induction t with
  | nil => rfl
  | cons q t ih =>
      by_cases hq : (q.1 == k) = true
      · have hq' : q.1 = k := eq_of_beq hq
        have hne : (q.1 == k') = false := by
          rw [hq']
          exact beq_false_of_ne (fun hh => hk hh.symm)
        simp only [List.map_cons, if_pos hq, dictLookup]
        rw [List.find?_cons_of_neg _ (by simpa using hne),
            List.find?_cons_of_neg _ (by simpa using hne)]
        exact ih
      · simp only [List.map_cons, if_neg hq, dictLookup]
        by_cases hq2 : (q.1 == k') = true
        · rw [List.find?_cons_of_pos _ (by simpa using hq2),
              List.find?_cons_of_pos _ (by simpa using hq2)]
        · rw [List.find?_cons_of_neg _ (by simpa using hq2),
              List.find?_cons_of_neg _ (by simpa using hq2)]
          exact ih

theorem lookup_map_replace_self {t : List (JVal × NRec)} {k : JVal} {v : NRec}
    (ha : t.any (fun q => q.1 == k) = true) :
    dictLookup (t.map (fun p => if p.1 == k then (p.1, v) else p)) k = some v := by
  induction t with
  | nil => simp at ha
  | cons q t ih =>
      by_cases hq : (q.1 == k) = true
      · simp only [List.map_cons, if_pos hq, dictLookup]
        rw [List.find?_cons_of_pos _ (by simpa using hq)]
        rfl
      · simp only [List.map_cons, if_neg hq, dictLookup]
        rw [List.find?_cons_of_neg _ (by simpa using hq)]
        have ha' : t.any (fun q => q.1 == k) = true := by
          rw [List.any_cons] at ha
          rcases Bool.or_eq_true_iff.mp ha with h1 | h1
          · exact absurd h1 hq
          · exact h1
        exact ih ha'

theorem lookup_append_single_ne {t : List (JVal × NRec)} {k k' : JVal} {v : NRec}
    (hk : (k == k') = false) :
    dictLookup (t ++ [(k, v)]) k' = dictLookup t k' := by
  induction t with
  | nil =>
      simp only [List.nil_append, dictLookup]
      rw [List.find?_cons_of_neg _ (by simpa using hk)]
  | cons q t ih =>
      by_cases hq : (q.1 == k') = true
      · simp only [List.cons_append, dictLookup]
        rw [List.find?_cons_of_pos _ (by simpa using hq),
            List.find?_cons_of_pos _ (by simpa using hq)]
      · simp only [List.cons_append, dictLookup]
        rw [List.find?_cons_of_neg _ (by simpa using hq),
            List.find?_cons_of_neg _ (by simpa using hq)]
        exact ih

theorem lookup_append_single_self {t : List (JVal × NRec)} {k : JVal} {v : NRec}
    (ha : t.any (fun q => q.1 == k) = false) :
    dictLookup (t ++ [(k, v)]) k = some v := by
  induction t with
  | nil =>
      simp only [List.nil_append, dictLookup]
      rw [List.find?_cons_of_pos _ (by simp)]
      rfl
  | cons q t ih =>
      rw [List.any_cons, Bool.or_eq_false_iff] at ha
      simp only [List.cons_append, dictLookup]
      rw [List.find?_cons_of_neg _ (by simpa using ha.1)]
      exact ih ha.2

theorem lookup_dictInsert (t : List (JVal × NRec)) (k k' : JVal) (v : NRec) :
    dictLookup (dictInsert t k v) k' = if k' = k then some v else dictLookup t k' := by
  unfold dictInsert
  by_cases hk : k' = k
  · subst hk
    rw [if_pos rfl]
    by_cases ha : t.any (fun q => q.1 == k') = true
    · rw [if_pos ha]
      exact lookup_map_replace_self ha
    · rw [Bool.not_eq_true] at ha
      rw [if_neg (by simp [ha])]
      exact lookup_append_single_self ha
  · rw [if_neg hk]
    by_cases ha : t.any (fun q => q.1 == k) = true
    · rw [if_pos ha]
      exact lookup_map_replace hk
    · rw [Bool.not_eq_true] at ha
      rw [if_neg (by simp [ha])]
      exact lookup_append_single_ne (beq_false_of_ne (fun hh => hk hh.symm))

theorem mem_dictUpdate {t u : List (JVal × NRec)} {p : JVal × NRec}
    (h : p ∈ dictUpdate t u) : p ∈ t ∨ p ∈ u := by
  induction u generalizing t with
  | nil => exact Or.inl h
  | cons q u ih =>
      unfold dictUpdate at h
      rw [List.foldl_cons] at h
      rcases ih (t := dictInsert t q.1 q.2) h with h1 | h1
      · rcases mem_dictInsert h1 with h2 | h2
        · exact Or.inl h2
        · right; rw [h2]; simp
      · right; exact List.mem_cons_of_mem _ h1

theorem nodup_keys_dictUpdate {t u : List (JVal × NRec)}
    (h : (t.map (fun p => p.1)).Nodup) :
    ((dictUpdate t u).map (fun p => p.1)).Nodup := by
  induction u generalizing t with
  | nil => exact h
  | cons q u ih =>
      unfold dictUpdate
      rw [List.foldl_cons]
      exact ih (nodup_keys_dictInsert h)

theorem lookup_not_mem_keys {u : List (JVal × NRec)} {k : JVal}
    (h : k ∉ u.map (fun p => p.1)) : dictLookup u k = none := by
  unfold dictLookup
  have hf : List.find? (fun p => p.1 == k) u = none := by
    rw [List.find?_eq_none]
    intro p hp hbeq
    exact h (List.mem_map.mpr ⟨p, hp, eq_of_beq hbeq⟩)
  rw [hf]
  rfl

theorem lookup_dictUpdate {u : List (JVal × NRec)} (t : List (JVal × NRec)) (k : JVal)
    (hu : (u.map (fun p => p.1)).Nodup) :
    dictLookup (dictUpdate t u) k =
      match dictLookup u k with
      | some v => some v
      | none => dictLookup t k := by
  induction u generalizing t with
  | nil => rfl
  | cons q u ih =>
      rw [List.map_cons, List.nodup_cons] at hu
      unfold dictUpdate
      rw [List.foldl_cons]
      have step := ih (t := dictInsert t q.1 q.2) hu.2
      unfold dictUpdate at step
      rw [step, lookup_dictInsert]
      have hcons : dictLookup (q :: u) k =
          if (q.1 == k) = true then some q.2 else dictLookup u k := by
        by_cases hq : (q.1 == k) = true
        · simp [dictLookup, List.find?_cons, hq]
        · rw [Bool.not_eq_true] at hq
          simp [dictLookup, List.find?_cons, hq]
      rw [hcons]
      by_cases hk : k = q.1
      · have hnone : dictLookup u k = none :=
          lookup_not_mem_keys (by rw [hk]; simpa using hu.1)
        rw [hnone, if_pos (show (q.1 == k) = true from by simpa using hk.symm), if_pos hk]
      · rw [if_neg (show ¬(q.1 == k) = true from by simpa using fun hh => hk hh.symm),
            if_neg hk]

/-! ## Poller-loop lemmas -/

theorem buildUpdates_nodup (now : ℚ) :
    ∀ (nodes : List JVal) (acc u : List (JVal × NRec)),
      buildUpdates now nodes acc = Except.ok u →
      (acc.map (fun p => p.1)).Nodup → (u.map (fun p => p.1)).Nodup := by
  intro nodes
  induction nodes with
  | nil =>
      intro acc u h hacc
      unfold buildUpdates at h
      injection h with h
      rw [← h]
      exact hacc
  | cons node rest ih =>
      intro acc u h hacc
      unfold buildUpdates at h
      cases hn : normalize_node now node with
      | error e => rw [hn, pym_bind_error] at h; exact absurd h (by simp)
      | ok r =>
          rw [hn, pym_bind_ok] at h
          cases r with
          | none => exact ih acc u h hacc
          | some dev => exact ih _ u h (nodup_keys_dictInsert hacc)

theorem buildUpdates_mem (now : ℚ) :
    ∀ (nodes : List JVal) (acc u : List (JVal × NRec)),
      buildUpdates now nodes acc = Except.ok u →
      ∀ p ∈ u, p ∈ acc ∨
        (p.1 = p.2.sn ∧ p.2.sn.truthy = true ∧
          ∃ node ∈ nodes, normalize_node now node = Except.ok (some p.2)) := by
  intro nodes
  induction nodes with
  | nil =>
      intro acc u h p hp
      unfold buildUpdates at h
      injection h with h
      rw [← h] at hp
      exact Or.inl hp
  | cons node rest ih =>
      intro acc u h p hp
      unfold buildUpdates at h
      cases hn : normalize_node now node with
      | error e => rw [hn, pym_bind_error] at h; exact absurd h (by simp)
      | ok r =>
          rw [hn, pym_bind_ok] at h
          cases r with
          | none =>
              rcases ih acc u h p hp with h1 | ⟨h1, h2, node', hn', hnorm⟩
              · exact Or.inl h1
              · exact Or.inr ⟨h1, h2, node', List.mem_cons_of_mem _ hn', hnorm⟩
          | some dev =>
              rcases ih _ u h p hp with h1 | ⟨h1, h2, node', hn', hnorm⟩
              · rcases mem_dictInsert h1 with h2 | h2
                · exact Or.inl h2
                · right
                  obtain ⟨hsh, hsnt, hdev⟩ := normalize_node_ok_some hn
                  rw [h2]
                  refine ⟨rfl, ?_, node, List.mem_cons_self _ _, hn⟩
                  rw [hdev]
                  exact hsnt
              · exact Or.inr ⟨h1, h2, node', List.mem_cons_of_mem _ hn', hnorm⟩

theorem cycleUpdates_nodup {now : ℚ} {f : FetchResult} {u : List (JVal × NRec)}
    (h : cycleUpdates now f = some u) : (u.map (fun p => p.1)).Nodup := by
  cases f with
  | httpError e => simp [cycleUpdates] at h
  | otherError e => simp [cycleUpdates] at h
  | ok payload =>
      simp only [cycleUpdates] at h
      cases hc : cycleBody now payload with
      | error e => rw [hc] at h; exact absurd h (by simp)
      | ok w =>
          rw [hc] at h
          injection h with h
          subst h
          unfold cycleBody at hc
          cases he : extract_nodes payload with
          | error e => rw [he, pym_bind_error] at hc; exact absurd hc (by simp)
          | ok nodes =>
              rw [he, pym_bind_ok] at hc
              exact buildUpdates_nodup now nodes [] _ hc (by simp)

theorem cycleUpdates_mem {now : ℚ} {f : FetchResult} {u : List (JVal × NRec)}
    (h : cycleUpdates now f = some u) :
    ∀ p ∈ u, p.1 = p.2.sn ∧ p.2.sn.truthy = true ∧
      ∃ payload nodes node, f = FetchResult.ok payload ∧
        extract_nodes payload = Except.ok nodes ∧ node ∈ nodes ∧
        normalize_node now node = Except.ok (some p.2) := by
  intro p hp
  cases f with
  | httpError e => simp [cycleUpdates] at h
  | otherError e => simp [cycleUpdates] at h
  | ok payload =>
      simp only [cycleUpdates] at h
      cases hc : cycleBody now payload with
      | error e => rw [hc] at h; exact absurd h (by simp)
      | ok w =>
          rw [hc] at h
          injection h with h
          subst h
          unfold cycleBody at hc
          cases he : extract_nodes payload with
          | error e => rw [he, pym_bind_error] at hc; exact absurd hc (by simp)
          | ok nodes =>
              rw [he, pym_bind_ok] at hc
              rcases buildUpdates_mem now nodes [] _ hc p hp with h1 | ⟨h1, h2, node, hn, hnorm⟩
              · exact absurd h1 (by simp)
              · exact ⟨h1, h2, payload, nodes, node, rfl, he, hn, hnorm⟩

theorem pollCycle_table_of_updates {now : ℚ} {f : FetchResult} {u : List (JVal × NRec)}
    (t : List (JVal × NRec)) (h : cycleUpdates now f = some u) :
    (pollCycle now f t).1 = dictUpdate t u := by
  cases f with
  | httpError e => simp [cycleUpdates] at h
  | otherError e => simp [cycleUpdates] at h
  | ok payload =>
      simp only [cycleUpdates] at h
      cases hc : cycleBody now payload with
      | error e => rw [hc] at h; exact absurd h (by simp)
      | ok w =>
          rw [hc] at h
          injection h with h
          subst h
          simp only [pollCycle]
          rw [hc]

theorem pollCycle_table_of_none {now : ℚ} {f : FetchResult}
    (t : List (JVal × NRec)) (h : cycleUpdates now f = none) :
    (pollCycle now f t).1 = t := by
  cases f with
  | httpError e => rfl
  | otherError e => rfl
  | ok payload =>
      simp only [cycleUpdates] at h
      cases hc : cycleBody now payload with
      | error e =>
          simp only [pollCycle]
          rw [hc]
      | ok w => rw [hc] at h; exact absurd h (by simp)

theorem lookup_pollCycle {now : ℚ} {f : FetchResult} (t : List (JVal × NRec)) (k : JVal) :
    dictLookup (pollCycle now f t).1 k =
      match (cycleUpdates now f).bind (fun u => dictLookup u k) with
      | some v => some v
      | none => dictLookup t k := by
  cases hcu : cycleUpdates now f with
  | none =>
      rw [pollCycle_table_of_none t hcu]
      rfl
  | some u =>
      rw [pollCycle_table_of_updates t hcu, lookup_dictUpdate t k (cycleUpdates_nodup hcu)]
      rfl

theorem lookup_pollerLoop (now : ℚ) (fs : List FetchResult) :
    ∀ (t : List (JVal × NRec)) (k : JVal),
      dictLookup (pollerLoop now fs t).1 k = lastEntry now fs k (dictLookup t k) := by
  induction fs with
  | nil => intro t k; rfl
  | cons f fs ih =>
      intro t k
      calc dictLookup (pollerLoop now (f :: fs) t).1 k
          = dictLookup (pollerLoop now fs (pollCycle now f t).1).1 k := rfl
        _ = lastEntry now fs k (dictLookup (pollCycle now f t).1 k) := ih _ _
        _ = lastEntry now fs k
              (match (cycleUpdates now f).bind (fun u => dictLookup u k) with
               | some v => some v
               | none => dictLookup t k) := by rw [lookup_pollCycle]
        _ = lastEntry now (f :: fs) k (dictLookup t k) := rfl

theorem pollerLoop_entries (now : ℚ) (fs : List FetchResult) :
    ∀ t : List (JVal × NRec), (∀ p ∈ t, p.1.truthy = true ∧ p.1 = p.2.sn) →
      ∀ p ∈ (pollerLoop now fs t).1, p.1.truthy = true ∧ p.1 = p.2.sn := by
  induction fs with
  | nil => intro t ht p hp; exact ht p hp
  | cons f fs ih =>
      intro t ht p hp
      have hstep : ∀ q ∈ (pollCycle now f t).1, q.1.truthy = true ∧ q.1 = q.2.sn := by
        intro q hq
        cases hcu : cycleUpdates now f with
        | none =>
            rw [pollCycle_table_of_none t hcu] at hq
            exact ht q hq
        | some u =>
            rw [pollCycle_table_of_updates t hcu] at hq
            rcases mem_dictUpdate hq with h1 | h1
            · exact ht q h1
            · obtain ⟨hk, htr, _⟩ := cycleUpdates_mem hcu q h1
              exact ⟨by rw [hk]; exact htr, hk⟩
      exact ih (pollCycle now f t).1 hstep p hp

theorem pollerLoop_nodup (now : ℚ) (fs : List FetchResult) :
    ∀ t : List (JVal × NRec), ((t.map (fun p => p.1)).Nodup) →
      (((pollerLoop now fs t).1.map (fun p => p.1)).Nodup) := by
  induction fs with
  | nil => intro t ht; exact ht
  | cons f fs ih =>
      intro t ht
      have hstep : (((pollCycle now f t).1.map (fun p => p.1)).Nodup) := by
        cases hcu : cycleUpdates now f with
        | none => rw [pollCycle_table_of_none t hcu]; exact ht
        | some u => rw [pollCycle_table_of_updates t hcu]; exact nodup_keys_dictUpdate ht
      exact ih _ hstep

/-! ## Broadcast lemmas -/

theorem sendAll_spec (sendOk : Client → Bool) (l : List Client) :
    sendAll sendOk l = (l.filter sendOk, l.filter (fun c => !sendOk c)) := by
  induction l with
  | nil => rfl
  | cons x xs ih =>
      by_cases hx : sendOk x = true
      · simp [sendAll, hx, ih, List.filter_cons]
      · rw [Bool.not_eq_true] at hx
        simp [sendAll, hx, ih, List.filter_cons]

theorem foldl_discard (dead : List Client) :
    ∀ reg : List Client,
      dead.foldl (fun r ws => r.filter (fun c => c != ws)) reg
        = reg.filter (fun c => !dead.contains c) := by
  induction dead with
  | nil => intro reg; simp
  | cons d ds ih =>
      intro reg
      rw [List.foldl_cons, ih, List.filter_filter]
      apply List.filter_congr
      intro c _
      simp only [List.contains_cons, Bool.not_or, bne]
      by_cases hcd : c = d <;> simp [hcd, Bool.and_comm]

theorem broadcast_spec (sendOk : Client → Bool) (registry : List Client) :
    broadcast sendOk registry = (registry.filter sendOk, registry.filter sendOk) := by
  unfold broadcast
  rw [sendAll_spec]
  simp only
  rw [foldl_discard]
  have : ∀ c ∈ registry,
      (!(registry.filter (fun c => !sendOk c)).contains c) = sendOk c := by
    intro c _
    by_cases h : sendOk c = true
    · have : (registry.filter (fun c => !sendOk c)).contains c = false := by
        rw [List.contains_eq_any_beq]
        rw [List.any_eq_false]
        intro x hx
        rcases List.mem_filter.mp hx with ⟨_, hxk⟩
        intro hb
        rw [eq_of_beq hb] at h
        rw [h] at hxk
        simp at hxk
      rw [this, h]
      rfl
    · rw [Bool.not_eq_true] at h
      have : (registry.filter (fun c => !sendOk c)).contains c = true := by
        rw [List.contains_eq_any_beq, List.any_eq_true]
        refine ⟨c, List.mem_filter.mpr ⟨‹c ∈ registry›, by rw [h]; rfl⟩, by simp⟩
      rw [this, h]
      rfl
  rw [List.filter_congr this]

/-! ## Claim theorems -/

/-- C1: for a record whose device-state object lacks latitude/longitude
but whose device-state values contain exactly one nested sub-object
carrying both coordinates (non-null), normalize_node returns that
sub-object's coordinates; and when neither the device-state object nor
any nested sub-object carries coordinates but the offline-position
object does, normalize_node returns the offline-position coordinates
with altitude and heading left null (they are only ever read from the
tier (a)/(b) object, never from the offline fallback). -/
theorem claim_C1_position_fallback (now : ℚ) (node : JVal) (dev : NRec)
    (hok : normalize_node now node = Except.ok (some dev)) :
    (∀ m : JVal,
      ((dsOf node).hasKey "latitude" = false ∨ (dsOf node).hasKey "longitude" = false) →
      (dsOf node).valuesD.filter
          (fun v => v.isObj && v.hasKey "latitude" && v.hasKey "longitude") = [m] →
      (m.getD "latitude").isNull = false →
      (m.getD "longitude").isNull = false →
      dev.lat = m.getD "latitude" ∧ dev.lng = m.getD "longitude") ∧
    (((dsOf node).hasKey "latitude" = false ∨ (dsOf node).hasKey "longitude" = false) →
      (dsOf node).valuesD.filter
          (fun v => v.isObj && v.hasKey "latitude" && v.hasKey "longitude") = [] →
      ((offlineOf node).getD "latitude").isNull = false →
      ((offlineOf node).getD "longitude").isNull = false →
      dev.lat = (offlineOf node).getD "latitude" ∧
      dev.lng = (offlineOf node).getD "longitude" ∧
      dev.alt_m = JVal.null ∧ dev.heading_deg = JVal.null) := by
  obtain ⟨hshape, hsn, hdev⟩ := normalize_node_ok_some hok
  subst hdev
  constructor
  · intro m hlack hfilter hmlat hmlng
    have hbase : baseOf node = JVal.null := by
      unfold baseOf
      rcases hlack with hl | hl <;> simp [hl]
    have hfind : (dsOf node).valuesD.find?
        (fun v => v.isObj && v.hasKey "latitude" && v.hasKey "longitude") = some m :=
      find?_of_filter_cons hfilter
    have hmP : (m.isObj && m.hasKey "latitude" && m.hasKey "longitude") = true := by
      have : m ∈ (dsOf node).valuesD.filter
          (fun v => v.isObj && v.hasKey "latitude" && v.hasKey "longitude") := by
        rw [hfilter]; simp
      exact (List.mem_filter.mp this).2
    have hmt : m.truthy = true := by
      simp only [Bool.and_eq_true] at hmP
      exact truthy_of_hasKey hmP.1.2
    have hmod : moduleOf node = m := by
      unfold moduleOf
      rw [hfind]
      simp [pyOr, hmt]
    have hbm : bmOf node = m := by
      unfold bmOf
      rw [hbase, hmod]
      simp [pyOr, JVal.truthy, hmt]
    simp only [mkRec, hbm, hmlat, hmlng, Bool.or_self, Bool.false_eq_true, if_false]
    exact ⟨trivial, trivial⟩
  · intro hlack hfilter _ _
    have hbase : baseOf node = JVal.null := by
      unfold baseOf
      rcases hlack with hl | hl <;> simp [hl]
    have hfind : (dsOf node).valuesD.find?
        (fun v => v.isObj && v.hasKey "latitude" && v.hasKey "longitude") = none :=
      find?_of_filter_nil hfilter
    have hmod : moduleOf node = emptyDict := by
      unfold moduleOf
      rw [hfind]
      simp [pyOr, emptyDict, JVal.truthy]
    have hbm : bmOf node = emptyDict := by
      unfold bmOf
      rw [hbase, hmod]
      simp [pyOr, JVal.truthy, emptyDict]
    simp only [mkRec, hbm]
    refine ⟨?_, ?_, ?_, ?_⟩ <;> simp [emptyDict, JVal.getD, JVal.isNull, pyOr, JVal.truthy]

/-- Witness for C1: a record whose device state holds the position only
in the nested sub-object m1 yields that sub-object's coordinates, and a
record with only an offline position yields the offline coordinates
with null altitude and heading. -/
theorem claim_C1_position_fallback_witness :
    ((mkRec 0 (JVal.obj [("host", JVal.obj [("device_sn", JVal.str "B"),
        ("device_state", JVal.obj [("m1", JVal.obj [("latitude", JVal.num 3),
          ("longitude", JVal.num 4)])])])])).lat = JVal.num 3 ∧
      (mkRec 0 (JVal.obj [("host", JVal.obj [("device_sn", JVal.str "B"),
        ("device_state", JVal.obj [("m1", JVal.obj [("latitude", JVal.num 3),
          ("longitude", JVal.num 4)])])])])).lng = JVal.num 4) ∧
    ((mkRec 0 (JVal.obj [("host", JVal.obj [("device_sn", JVal.str "C"),
        ("device_offline_position", JVal.obj [("latitude", JVal.num 9),
          ("longitude", JVal.num 10)])])])).lat = JVal.num 9 ∧
      (mkRec 0 (JVal.obj [("host", JVal.obj [("device_sn", JVal.str "C"),
        ("device_offline_position", JVal.obj [("latitude", JVal.num 9),
          ("longitude", JVal.num 10)])])])).lng = JVal.num 10 ∧
      (mkRec 0 (JVal.obj [("host", JVal.obj [("device_sn", JVal.str "C"),
        ("device_offline_position", JVal.obj [("latitude", JVal.num 9),
          ("longitude", JVal.num 10)])])])).alt_m = JVal.null ∧
      (mkRec 0 (JVal.obj [("host", JVal.obj [("device_sn", JVal.str "C"),
        ("device_offline_position", JVal.obj [("latitude", JVal.num 9),
          ("longitude", JVal.num 10)])])])).heading_deg = JVal.null) := by
  constructor
  · exact (claim_C1_position_fallback 0
      (JVal.obj [("host", JVal.obj [("device_sn", JVal.str "B"),
        ("device_state", JVal.obj [("m1", JVal.obj [("latitude", JVal.num 3),
          ("longitude", JVal.num 4)])])])])
      (mkRec 0 (JVal.obj [("host", JVal.obj [("device_sn", JVal.str "B"),
        ("device_state", JVal.obj [("m1", JVal.obj [("latitude", JVal.num 3),
          ("longitude", JVal.num 4)])])])]))
      (by rfl)).1
      (JVal.obj [("latitude", JVal.num 3), ("longitude", JVal.num 4)])
      (Or.inl (by rfl)) (by rfl) (by rfl) (by rfl)
  · exact (claim_C1_position_fallback 0
      (JVal.obj [("host", JVal.obj [("device_sn", JVal.str "C"),
        ("device_offline_position", JVal.obj [("latitude", JVal.num 9),
          ("longitude", JVal.num 10)])])])
      (mkRec 0 (JVal.obj [("host", JVal.obj [("device_sn", JVal.str "C"),
        ("device_offline_position", JVal.obj [("latitude", JVal.num 9),
          ("longitude", JVal.num 10)])])]))
      (by rfl)).2
      (Or.inl (by rfl)) (by rfl) (by rfl) (by rfl)

/-- C2: a poll cycle whose upstream fetch fails (httpx.HTTPError for a
network failure or non-2xx status, any other exception for a malformed
body) broadcasts exactly one error message, leaves the state table
exactly as it was (no partial merge), and the loop then continues with
the remaining cycles unchanged. -/
theorem claim_C2_fetch_failure_cycle (now : ℚ) (e : String) (fs : List FetchResult)
    (t : List (JVal × NRec)) :
    pollerLoop now (FetchResult.httpError e :: fs) t =
      ((pollerLoop now fs t).1,
        Msg.error ("HTTP error: " ++ e) :: (pollerLoop now fs t).2) ∧
    pollerLoop now (FetchResult.otherError e :: fs) t =
      ((pollerLoop now fs t).1,
        Msg.error ("Unexpected error: " ++ e) :: (pollerLoop now fs t).2) := by
  constructor <;> rfl

/-- C3: starting from the empty table, every reachable state of the
state table has truthy (non-empty) identifier keys each equal to the
record's own sn, holds at most one entry per key, resolves each key to
the entry of the most recent cycle whose update set contains it
(lastEntry), and every update-set entry is the whole normalize_node
output of some node of that cycle's payload. -/
theorem claim_C3_state_table_invariants (now : ℚ) (fs : List FetchResult) (k : JVal) :
    (∀ p ∈ (pollerLoop now fs []).1, p.1.truthy = true ∧ p.1 = p.2.sn) ∧
    ((pollerLoop now fs []).1.map (fun p => p.1)).Nodup ∧
    dictLookup (pollerLoop now fs []).1 k = lastEntry now fs k none ∧
    (∀ f ∈ fs, ∀ u, cycleUpdates now f = some u → ∀ p ∈ u,
      p.1 = p.2.sn ∧ p.2.sn.truthy = true ∧
      ∃ payload nodes node, f = FetchResult.ok payload ∧
        extract_nodes payload = Except.ok nodes ∧ node ∈ nodes ∧
        normalize_node now node = Except.ok (some p.2)) := by
  refine ⟨pollerLoop_entries now fs [] (by simp), pollerLoop_nodup now fs [] (by simp),
    lookup_pollerLoop now fs [] k, ?_⟩
  intro f _ u hu p hp
  exact cycleUpdates_mem hu p hp

/-- Witness for C3: one cycle with a single device A1; the table entry
for A1 is the full normalized record of that cycle, and its key is
truthy and equals the record's sn. -/
theorem claim_C3_state_table_invariants_witness :
    dictLookup (pollerLoop 0 [FetchResult.ok (JVal.obj [("data", JVal.obj [("list",
        JVal.arr [JVal.obj [("host", JVal.obj [("device_sn", JVal.str "A1")])]])])])] []).1
      (JVal.str "A1") =
      some (mkRec 0 (JVal.obj [("host", JVal.obj [("device_sn", JVal.str "A1")])])) ∧
    ((JVal.str "A1").truthy = true ∧
      JVal.str "A1" =
        (mkRec 0 (JVal.obj [("host", JVal.obj [("device_sn", JVal.str "A1")])])).sn) := by
  constructor
  · exact (claim_C3_state_table_invariants 0
      [FetchResult.ok (JVal.obj [("data", JVal.obj [("list",
        JVal.arr [JVal.obj [("host", JVal.obj [("device_sn", JVal.str "A1")])]])])])]
      (JVal.str "A1")).2.2.1
  · exact (claim_C3_state_table_invariants 0
      [FetchResult.ok (JVal.obj [("data", JVal.obj [("list",
        JVal.arr [JVal.obj [("host", JVal.obj [("device_sn", JVal.str "A1")])]])])])]
      (JVal.str "A1")).1
      (JVal.str "A1", mkRec 0 (JVal.obj [("host", JVal.obj [("device_sn", JVal.str "A1")])]))
      (by exact List.mem_singleton.mpr rfl)

/-- C4: broadcast attempts delivery to every registered handle
independently; the delivered set is exactly the handles whose send
succeeds (a failure on one handle never blocks another), and the
registry afterwards is exactly the surviving handles: every handle
whose send failed has been discarded. -/
theorem claim_C4_broadcast_isolation (sendOk : Client → Bool) (registry : List Client) :
    (broadcast sendOk registry).1 = registry.filter sendOk ∧
    (broadcast sendOk registry).2 = registry.filter sendOk ∧
    (∀ c ∈ registry, sendOk c = true → c ∈ (broadcast sendOk registry).1) ∧
    (∀ c ∈ registry, sendOk c = false → c ∉ (broadcast sendOk registry).2) := by
  have h := broadcast_spec sendOk registry
  rw [h]
  refine ⟨rfl, rfl, ?_, ?_⟩
  · intro c hc hok
    exact List.mem_filter.mpr ⟨hc, hok⟩
  · intro c _ hbad hmem
    rcases List.mem_filter.mp hmem with ⟨_, hok⟩
    rw [hbad] at hok
    exact absurd hok (by simp)

/-- Witness for C4: three subscribers 1, 2, 3 where the send to 2
fails; 1 and 3 still receive the message and 2 is absent from the
registry afterwards. -/
theorem claim_C4_broadcast_isolation_witness :
    (broadcast (fun c => c != 2) [1, 2, 3]).1 = [1, 3] ∧
    (broadcast (fun c => c != 2) [1, 2, 3]).2 = [1, 3] ∧
    1 ∈ (broadcast (fun c => c != 2) [1, 2, 3]).1 ∧
    3 ∈ (broadcast (fun c => c != 2) [1, 2, 3]).1 ∧
    2 ∉ (broadcast (fun c => c != 2) [1, 2, 3]).2 := by
  refine ⟨(claim_C4_broadcast_isolation (fun c => c != 2) [1, 2, 3]).1,
    (claim_C4_broadcast_isolation (fun c => c != 2) [1, 2, 3]).2.1,
    (claim_C4_broadcast_isolation (fun c => c != 2) [1, 2, 3]).2.2.1 1 (by simp) (by rfl),
    (claim_C4_broadcast_isolation (fun c => c != 2) [1, 2, 3]).2.2.1 3 (by simp) (by rfl),
    (claim_C4_broadcast_isolation (fun c => c != 2) [1, 2, 3]).2.2.2 2 (by simp) (by rfl)⟩

/-- C5 counterexample: with the default configuration the hard fetch
timeout (10.0 seconds, Run.py line 186) is NOT shorter than the poll
interval (POLL_SECONDS defaults to 2.0, Run.py line 66), refuting the
claim that the timeout passed to the fetch is less than POLL_SECONDS. -/
theorem claim_C5_timeout_counterexample : ¬ FETCH_TIMEOUT < POLL_SECONDS none := by
  norm_num [FETCH_TIMEOUT, POLL_SECONDS, Option.getD]

/-- C5 amended: the fetch call does carry a hard per-call timeout of
10.0 seconds, but it is strictly larger than the default 2.0-second
poll interval, not shorter. -/
theorem claim_C5_timeout_amended :
    POLL_SECONDS none = 2 ∧ FETCH_TIMEOUT = 10 ∧ POLL_SECONDS none < FETCH_TIMEOUT := by
  refine ⟨rfl, rfl, ?_⟩
  norm_num [FETCH_TIMEOUT, POLL_SECONDS, Option.getD]

/-- C6 counterexample: normalize_node is not total over records with a
malformed device-state field: a record whose device_state is a truthy
non-dict (here the string "oops") makes line 147 of Run.py call
.values() on a non-dict and raise AttributeError instead of degrading
the field to null, refuting the claim that any field access failure
degrades to null and that only a missing identifier causes a skip. -/
theorem claim_C6_totality_counterexample :
    normalize_node 0 (JVal.obj [("host", JVal.obj [("device_sn", JVal.str "A1"),
      ("device_state", JVal.str "oops")])]) =
      Except.error "AttributeError: values" := by rfl

/-- C6 amended: normalize_node is total exactly over shapeOk records
(the record is a dict; host, device_state and device_offline_position
are dicts whenever truthy; the offline timestamp is falsy, numeric or
boolean).  On such records it never raises, returns skip exactly when
the identifier is falsy, and otherwise returns the mkRec record in
which each individually missing field degrades to null. -/
theorem claim_C6_totality_amended (now : ℚ) (node : JVal) (h : shapeOk node = true) :
    normalize_node now node =
      Except.ok (if (snOf node).truthy = true then some (mkRec now node) else none) := by
  rcases normalize_node_shape_cases now node with ⟨_, h2⟩ | ⟨h1, _, _⟩
  · exact h2
  · rw [h] at h1
    exact absurd h1 (by simp)

/-- Witness for C6 amended: a well-shaped record with an identifier
normalizes to its mkRec record, and one with no identifier is skipped
rather than raising. -/
theorem claim_C6_totality_amended_witness :
    normalize_node 0 (JVal.obj [("host", JVal.obj [("device_sn", JVal.str "A1")])]) =
      Except.ok (some (mkRec 0
        (JVal.obj [("host", JVal.obj [("device_sn", JVal.str "A1")])]))) ∧
    normalize_node 0 (JVal.obj [("host", JVal.obj [])]) = Except.ok none := by
  constructor
  · have h := claim_C6_totality_amended 0
      (JVal.obj [("host", JVal.obj [("device_sn", JVal.str "A1")])]) (by rfl)
    rw [h]
    rfl
  · have h := claim_C6_totality_amended 0 (JVal.obj [("host", JVal.obj [])]) (by rfl)
    rw [h]
    rfl

/-- C7 counterexample: an unexpected internal exception during a cycle
(any non-HTTPError, Run.py line 234) is swallowed, not surfaced: the
cycle merely broadcasts an Unexpected-error message, the table is kept,
and the loop proceeds with the next cycle exactly as for a transient
upstream failure, refuting the claim that such a failure ends the cycle
loudly (crash or restart). -/
theorem claim_C7_swallow_counterexample :
    pollCycle 0 (FetchResult.otherError "internal invariant broken") [] =
      ([], [Msg.error "Unexpected error: internal invariant broken"]) ∧
    pollerLoop 0 [FetchResult.otherError "internal invariant broken",
        FetchResult.ok (JVal.obj [])] [] =
      ([], [Msg.error "Unexpected error: internal invariant broken"]) := by
  constructor <;> rfl

/-- C7 amended: an unexpected internal exception is caught by the
catch-all except clause of poller_loop, reported to subscribers as an
error message with the Unexpected-error prefix (the only way it is
distinguished from an HTTP failure), and the loop continues with the
next cycle; nothing propagates, crashes or restarts. -/
theorem claim_C7_swallow_amended (now : ℚ) (e : String) (fs : List FetchResult)
    (t : List (JVal × NRec)) :
    pollCycle now (FetchResult.otherError e) t =
      (t, [Msg.error ("Unexpected error: " ++ e)]) ∧
    pollerLoop now (FetchResult.otherError e :: fs) t =
      ((pollerLoop now fs t).1,
        Msg.error ("Unexpected error: " ++ e) :: (pollerLoop now fs t).2) := by
  constructor <;> rfl

/-- C8: when the offline-position timestamp is falsy (0, 0.0, None or
absent), updated_at is the wall clock at normalization time and never
an epoch-milliseconds rendering (in particular not the epoch-zero
date); when it is a non-zero number q, updated_at is the ISO-8601 UTC
rendering of q epoch milliseconds. -/
theorem claim_C8_falsy_timestamp (now : ℚ) (node : JVal) (dev : NRec)
    (hok : normalize_node now node = Except.ok (some dev)) :
    ((offTsOf node).truthy = false →
      dev.updated_at = Iso.atNow now ∧ ∀ q : ℚ, dev.updated_at ≠ Iso.ofMs q) ∧
    (∀ q : ℚ, q ≠ 0 → offTsOf node = JVal.num q → dev.updated_at = Iso.ofMs q) := by
  obtain ⟨hshape, hsn, hdev⟩ := normalize_node_ok_some hok
  subst hdev
  constructor
  · intro hts
    have hpure : msToIsoPure (offTsOf node) = none := by
      simp [msToIsoPure, hts]
    constructor
    · simp [mkRec, hpure, now_iso]
    · intro q
      simp [mkRec, hpure, now_iso]
  · intro q hq hts
    have hpure : msToIsoPure (offTsOf node) = some (Iso.ofMs q) := by
      rw [hts]
      simp [msToIsoPure, JVal.truthy, hq]
    simp [mkRec, hpure]

/-- Witness for C8: a record with offline timestamp 0 gets the
normalization wall clock (here 7), and one with timestamp 123 gets the
rendering of 123 epoch milliseconds. -/
theorem claim_C8_falsy_timestamp_witness :
    (mkRec 7 (JVal.obj [("host", JVal.obj [("device_sn", JVal.str "T"),
        ("device_offline_position", JVal.obj [("timestamp", JVal.num 0)])])])).updated_at =
      Iso.atNow 7 ∧
    (mkRec 7 (JVal.obj [("host", JVal.obj [("device_sn", JVal.str "T"),
        ("device_offline_position",
          JVal.obj [("timestamp", JVal.num 123)])])])).updated_at =
      Iso.ofMs 123 := by
  constructor
  · exact ((claim_C8_falsy_timestamp 7
      (JVal.obj [("host", JVal.obj [("device_sn", JVal.str "T"),
        ("device_offline_position", JVal.obj [("timestamp", JVal.num 0)])])])
      (mkRec 7 (JVal.obj [("host", JVal.obj [("device_sn", JVal.str "T"),
        ("device_offline_position", JVal.obj [("timestamp", JVal.num 0)])])]))
      (by rfl)).1 (by rfl)).1
  · exact (claim_C8_falsy_timestamp 7
      (JVal.obj [("host", JVal.obj [("device_sn", JVal.str "T"),
        ("device_offline_position", JVal.obj [("timestamp", JVal.num 123)])])])
      (mkRec 7 (JVal.obj [("host", JVal.obj [("device_sn", JVal.str "T"),
        ("device_offline_position", JVal.obj [("timestamp", JVal.num 123)])])]))
      (by rfl)).2 123 (by norm_num) (by rfl)

/-- C9: a successful cycle whose update set is empty leaves the state
table exactly as it was and broadcasts nothing, so the subscriber
broadcast count is unchanged by that cycle. -/
theorem claim_C9_empty_update_noop (now : ℚ) (payload : JVal) (t : List (JVal × NRec))
    (h : cycleUpdates now (FetchResult.ok payload) = some []) :
    pollCycle now (FetchResult.ok payload) t = (t, []) := by
  simp only [cycleUpdates] at h
  cases hc : cycleBody now payload with
  | error e => rw [hc] at h; exact absurd h (by simp)
  | ok u =>
      rw [hc] at h
      injection h with h
      subst h
      simp only [pollCycle]
      rw [hc]
      simp [dictUpdate]

/-- Witness for C9: a payload with no device list yields an empty
update set, and the cycle is a no-op on a non-empty table with no
broadcast. -/
theorem claim_C9_empty_update_noop_witness :
    pollCycle 0 (FetchResult.ok (JVal.obj []))
      [(JVal.str "A1", mkRec 0 (JVal.obj [("host",
        JVal.obj [("device_sn", JVal.str "A1")])]))] =
      ([(JVal.str "A1", mkRec 0 (JVal.obj [("host",
        JVal.obj [("device_sn", JVal.str "A1")])]))], []) :=
  claim_C9_empty_update_noop 0 (JVal.obj [])
    [(JVal.str "A1", mkRec 0 (JVal.obj [("host",
      JVal.obj [("device_sn", JVal.str "A1")])]))] (by rfl)

/-- C10: when the tier (a)/(b) position object reports a falsy
attitude_head (in particular a true heading of 0 or 0.0 degrees), the
Python or-chain at Run.py line 160 discards it and falls through to the
object's heading key, so the returned heading_deg is that key's value
(or null), never the 0 supplied via attitude_head. -/
theorem claim_C10_falsy_heading (now : ℚ) (node : JVal) (dev : NRec)
    (hok : normalize_node now node = Except.ok (some dev))
    (hfalsy : ((bmOf node).getD "attitude_head").truthy = false) :
    dev.heading_deg = (bmOf node).getD "heading" := by
  obtain ⟨hshape, hsn, hdev⟩ := normalize_node_ok_some hok
  subst hdev
  simp [mkRec, pyOr, hfalsy]

/-- Witness for C10: a device state reporting attitude_head 0 and
heading 90 yields heading_deg 90, not 0. -/
theorem claim_C10_falsy_heading_witness :
    (mkRec 0 (JVal.obj [("host", JVal.obj [("device_sn", JVal.str "D"),
      ("device_state", JVal.obj [("latitude", JVal.num 1), ("longitude", JVal.num 2),
        ("attitude_head", JVal.num 0), ("heading", JVal.num 90)])])])).heading_deg =
      JVal.num 90 :=
  claim_C10_falsy_heading 0
    (JVal.obj [("host", JVal.obj [("device_sn", JVal.str "D"),
      ("device_state", JVal.obj [("latitude", JVal.num 1), ("longitude", JVal.num 2),
        ("attitude_head", JVal.num 0), ("heading", JVal.num 90)])])])
    (mkRec 0 (JVal.obj [("host", JVal.obj [("device_sn", JVal.str "D"),
      ("device_state", JVal.obj [("latitude", JVal.num 1), ("longitude", JVal.num 2),
        ("attitude_head", JVal.num 0), ("heading", JVal.num 90)])])]))
    (by rfl) (by rfl)
